import Mathlib

/-!
# OTPMail: the password-reset OTP lifecycle of `src/index.js`

A shallow embedding of the Express handlers of `src/index.js`:

* the plain JavaScript object `otpStorage` (line 128) with the property
  semantics of an ordinary object whose prototype is `Object.prototype`;
* the `student_database` table as a list of rows, with the three statements
  the handlers send to it;
* the handlers `POST /signup`, `POST /verify_otp/:email`,
  `POST /forgot_password` and `POST /reset_password/:email` as functions from a
  state and a request to a response and a state.

What the environment decides (whether a query fails, which code
`randomstring.generate` returns, whether `sendMail` reports an error) is an
argument of the handler.  A handler runs from start to end on the state it
is given: interleavings of concurrent requests are outside this model.
Strings are Lean strings (sequences of Unicode scalar values).
-/

namespace OTPMail

/-! ## JavaScript values read from `otpStorage` and from the request body -/

/-- The values that the two operands of `otpStorage[email] === otp` (line 143)
take: `undefined`, a string, or a member inherited from `Object.prototype`
(a function object, or the prototype object itself for `__proto__`). -/
inductive JsValue where
  | undefined
  | str (s : String)
  | inherited (name : String)
  deriving DecidableEq, Repr

/-- The property names every ordinary object inherits from
`Object.prototype`. -/
def objectPrototypeKeys : List String :=
  ["constructor", "__defineGetter__", "__defineSetter__", "hasOwnProperty",
   "__lookupGetter__", "__lookupSetter__", "isPrototypeOf",
   "propertyIsEnumerable", "toString", "valueOf", "__proto__",
   "toLocaleString"]

/-- JavaScript `===` on `JsValue`: no coercion; strings compare by content,
inherited members by identity (one object per name). -/
def strictEq : JsValue → JsValue → Bool
  | .undefined, .undefined => true
  | .str a, .str b => decide (a = b)
  | .inherited a, .inherited b => decide (a = b)
  | _, _ => false

/-- The own properties of `otpStorage`, in insertion order.  Every value the
program stores is a string (the OTP of line 179). -/
abbrev OtpStorage := List (String × String)

/-- The own property `k` of the object, if there is one. -/
def getOwn : OtpStorage → String → Option String
  | [], _ => none
  | (k', v) :: rest, k => if k' = k then some v else getOwn rest k

/-- Property read `otpStorage[k]`: the own property if present, otherwise
the member inherited from `Object.prototype`, otherwise `undefined`. -/
def getProp (o : OtpStorage) (k : String) : JsValue :=
  match getOwn o k with
  | some v => .str v
  | none => if k ∈ objectPrototypeKeys then .inherited k else .undefined

/-- Replace the value of the own property `k`. -/
def replaceOwn : OtpStorage → String → String → OtpStorage
  | [], _, _ => []
  | (k', v') :: rest, k, v =>
    if k' = k then (k', v) :: replaceOwn rest k v else (k', v') :: replaceOwn rest k v

/-- Property write `otpStorage[k] = v` with a string `v`: an own property is
overwritten; without one, the key `__proto__` reaches the accessor of
`Object.prototype`, whose setter ignores a value that is not an object, and
every other key gets a new own property (the inherited members are writable
data properties, so they are shadowed). -/
def setProp (o : OtpStorage) (k : String) (v : String) : OtpStorage :=
  match getOwn o k with
  | some _ => replaceOwn o k v
  | none => if k = "__proto__" then o else o ++ [(k, v)]

/-- The statement `delete otpStorage[k]`: removes the own property `k`; when
there is none it does nothing and does not throw. -/
def deleteProp (o : OtpStorage) (k : String) : OtpStorage :=
  o.filter (fun p => !decide (p.1 = k))

/-! ## `encodeURIComponent` and `decodeURIComponent` (ECMA-262) -/

/-- The characters `encodeURIComponent` leaves as they are: ASCII letters,
digits and `- _ . ! ~ * ' ( )`. -/
def uriUnreserved (c : Char) : Bool :=
  c.isAlphanum || c ∈ ['-', '_', '.', '!', '~', '*', Char.ofNat 39, '(', ')']

/-- The upper-case hexadecimal digit of a number below 16. -/
def hexDigit (n : Nat) : Char :=
  if n < 10 then Char.ofNat (48 + n) else Char.ofNat (55 + n)

/-- The value of a hexadecimal digit, in either case. -/
def hexVal (c : Char) : Option Nat :=
  let n := c.toNat
  if 48 ≤ n ∧ n ≤ 57 then some (n - 48)
  else if 65 ≤ n ∧ n ≤ 70 then some (n - 55)
  else if 97 ≤ n ∧ n ≤ 102 then some (n - 87)
  else none

/-- The UTF-8 octets of a code point. -/
def utf8Octets (c : Char) : List Nat :=
  let n := c.toNat
  if n < 0x80 then [n]
  else if n < 0x800 then [0xC0 + n / 64, 0x80 + n % 64]
  else if n < 0x10000 then [0xE0 + n / 4096, 0x80 + n / 64 % 64, 0x80 + n % 64]
  else [0xF0 + n / 262144, 0x80 + n / 4096 % 64, 0x80 + n / 64 % 64, 0x80 + n % 64]

/-- One octet written as `%XX`. -/
def percentOctet (b : Nat) : List Char :=
  ['%', hexDigit (b / 16), hexDigit (b % 16)]

/-- The encoding of one character. -/
def encodeChar (c : Char) : List Char :=
  if uriUnreserved c then [c] else ((utf8Octets c).map percentOctet).flatten

/-- The built-in `encodeURIComponent` on a well-formed string. -/
def encodeURIComponent (s : String) : String :=
  String.mk ((s.toList.map encodeChar).flatten)

/-- What the decoder reads: a literal character or the octet of a `%XX`
escape. -/
inductive UriToken where
  | lit (c : Char)
  | octet (b : Nat)
  deriving DecidableEq, Repr

/-- Split the input into literal characters and `%XX` escapes; `none` (the
`URIError` of the built-in) when a `%` is not followed by two hexadecimal
digits. -/
def percentTokens : List Char → Option (List UriToken)
  | [] => some []
  | c :: rest =>
    if c = '%' then
      match rest with
      | h1 :: h2 :: rest' =>
        match hexVal h1, hexVal h2, percentTokens rest' with
        | some a, some b, some ts => some (.octet (16 * a + b) :: ts)
        | _, _, _ => none
      | _ => none
    else
      match percentTokens rest with
      | some ts => some (.lit c :: ts)
      | none => none

/-- Whether an octet is a UTF-8 continuation octet `10xxxxxx`. -/
def isContinuation (b : Nat) : Bool := decide (0x80 ≤ b ∧ b < 0xC0)

/-- A leading octet of a multi-octet UTF-8 sequence: the number of
continuation octets it announces, its payload bits, and the smallest code
point that needs a sequence of this length.  The octets `10xxxxxx` and
`11111xxx` are not leading octets. -/
def leadOctet (b : Nat) : Option (Nat × Nat × Nat) :=
  if 0xC0 ≤ b ∧ b < 0xE0 then some (1, b - 0xC0, 0x80)
  else if 0xE0 ≤ b ∧ b < 0xF0 then some (2, b - 0xE0, 0x800)
  else if 0xF0 ≤ b ∧ b < 0xF8 then some (3, b - 0xF0, 0x10000)
  else none

/-- Whether `v` is a code point validly encoded by a sequence whose
shortest-form bound is `least`: not shorter-encodable, not a surrogate, at
most `U+10FFFF`. -/
def validScalar (v least : Nat) : Bool :=
  decide (least ≤ v ∧ v < 0x110000 ∧ ¬ (0xD800 ≤ v ∧ v < 0xE000))

/-- Put the escapes back together, reading left to right.  The first argument
is `none` between characters, and `some (k, v, least)` inside a multi-octet
sequence that still needs `k` continuation octets, with payload `v` so far.
An octet below `0x80` is its ASCII character; a leading octet must be
followed by as many continuation escapes as it announces and the sequence
must be valid UTF-8; anything else is the `URIError` of the built-in. -/
def assembleFrom : Option (Nat × Nat × Nat) → List UriToken → Option (List Char)
  | none, [] => some []
  | some _, [] => none
  | none, .lit c :: rest => (assembleFrom none rest).map (c :: ·)
  | some _, .lit _ :: _ => none
  | none, .octet b :: rest =>
    if b < 0x80 then (assembleFrom none rest).map (Char.ofNat b :: ·)
    else
      match leadOctet b with
      | some st => assembleFrom (some st) rest
      | none => none
  | some (k, v, least), .octet b :: rest =>
    if isContinuation b then
      if k = 1 then
        if validScalar (v * 64 + (b - 0x80)) least then
          (assembleFrom none rest).map (Char.ofNat (v * 64 + (b - 0x80)) :: ·)
        else none
      else assembleFrom (some (k - 1, v * 64 + (b - 0x80), least)) rest
    else none

/-- Decode a whole token sequence. -/
def assembleTokens (ts : List UriToken) : Option (List Char) :=
  assembleFrom none ts

/-- The built-in `decodeURIComponent`; `none` stands for the `URIError` it
throws on a malformed escape sequence. -/
def decodeURIComponent (s : String) : Option String :=
  match percentTokens s.toList with
  | some ts => (assembleTokens ts).map String.mk
  | none => none

/-- The tokens the decoder reads from the encoding of one character. -/
def charTokens (c : Char) : List UriToken :=
  if uriUnreserved c then [.lit c] else (utf8Octets c).map .octet

/-- How Express fills `req.params.email`: the path segment matched by
`:email`, passed through `decodeURIComponent` once by the router. -/
def routeParam (segment : String) : Option String :=
  decodeURIComponent segment

/-! ## The `student_database` table and the statements sent to it -/

/-- One row of `student_database` (lines 36-45). -/
structure Account where
  ID : Nat
  Name : String
  Age : String
  Email : String
  Phone : String
  RegistrationNumber : String
  CollegeBatch : String
  Password : String
  deriving DecidableEq, Repr

/-- The table: its rows in insertion order and the next `AUTO_INCREMENT`
value. -/
structure Store where
  rows : List Account
  autoIncrement : Nat
  deriving DecidableEq, Repr

/-- The fields of `req.body` read by `POST /signup` (line 68). -/
structure SignupBody where
  name : String
  email : String
  phone : String
  registrationNumber : String
  collegeBatch : String
  age : String
  password : String
  deriving DecidableEq, Repr

/-- The rows of `SELECT * FROM student_database WHERE Email=?` (lines 71 and
172); the comparison is equality of strings. -/
def selectByEmail (s : Store) (email : String) : List Account :=
  s.rows.filter (fun a => decide (a.Email = email))

/-- The statement `INSERT INTO student_database SET ?` with the `userData`
of lines 82-90. -/
def insertUser (s : Store) (b : SignupBody) : Store :=
  { rows := s.rows ++
      [{ ID := s.autoIncrement, Name := b.name, Age := b.age, Email := b.email,
         Phone := b.phone, RegistrationNumber := b.registrationNumber,
         CollegeBatch := b.collegeBatch, Password := b.password }],
    autoIncrement := s.autoIncrement + 1 }

/-- The statement `UPDATE student_database SET password = ? WHERE email = ?`
(line 229). -/
def updatePassword (s : Store) (newPassword email : String) : Store :=
  { rows := s.rows.map
      (fun a => if a.Email = email then { a with Password := newPassword } else a),
    autoIncrement := s.autoIncrement }

/-! ## Responses and the state of the server -/

/-- The `mailOptions` of lines 188-193 (`sender` is its `from`, `recipient`
its `to`). -/
structure MailOptions where
  sender : String
  recipient : String
  subject : String
  text : String
  deriving DecidableEq, Repr

/-- What a handler answers: `res.status(c).json(...)` with a one-field
object (its key and its message), `res.redirect(url)`, `res.sendStatus(c)`,
or nothing at all when an exception escapes the `async` handler before it
answers. -/
inductive Response where
  | json (status : Nat) (key : String) (msg : String)
  | redirect (url : String)
  | sendStatus (code : Nat)
  | unhandled
  deriving DecidableEq, Repr

/-- The state the handlers share: the table, `otpStorage`, and the messages
handed to `transporter.sendMail`, oldest first. -/
structure Server where
  store : Store
  otpStorage : OtpStorage
  outbox : List MailOptions
  deriving DecidableEq, Repr

/-! ## The OTP registry operations, as the handlers perform them -/

/-- The operation `issue`: the assignment `otpStorage[email] = otp` of line
185. -/
def issue (o : OtpStorage) (identifier code : String) : OtpStorage :=
  setProp o identifier code

/-- The operation `validate`: the condition `otpStorage[email] === otp` of
line 143. -/
def validate (o : OtpStorage) (identifier : String) (candidate : JsValue) : Bool :=
  strictEq (getProp o identifier) candidate

/-- The operation `consume`: the statement `delete otpStorage[email]` of line
232. -/
def consume (o : OtpStorage) (identifier : String) : OtpStorage :=
  deleteProp o identifier

/-! ## The handlers -/

/-- Handler `app.post('/signup')` (lines 67-102).  `selectFails` and
`insertFails` say whether the first and the second `pool.query` reject; a
rejected statement changes nothing. -/
def post_signup (w : Server) (body : SignupBody) (selectFails insertFails : Bool) :
    Response × Server :=
  if selectFails then (.json 500 "error" "Internal Server Error", w)
  else
    let result := selectByEmail w.store body.email
    if result.length = 0 then
      if insertFails then (.json 500 "error" "Internal Server Error", w)
      else (.json 200 "message" "User successfully registered",
            { w with store := insertUser w.store body })
    else (.json 400 "error" "Email already exists", w)

/-- Handler `app.post('/verify_otp/:email')` (lines 139-150); `email` is
`req.params.email`, `otp` is `req.body.otp`: the submitted string, or
`undefined` when the field is missing. -/
def post_verify_otp (w : Server) (email : String) (otp : JsValue) : Response × Server :=
  if validate w.otpStorage email otp then
    (.redirect ("/reset_password/" ++ encodeURIComponent email), w)
  else (.json 401 "error" "Invalid OTP", w)

/-- Handler `app.post('/forgot_password')` (lines 168-214).  `queryFails`
says whether `pool.query` rejects, `otp` is what `randomstring.generate`
returns, `mailFails` whether `sendMail` calls back with an error. -/
def post_forgot_password (w : Server) (email : String) (queryFails : Bool)
    (otp : String) (mailFails : Bool) : Response × Server :=
  if queryFails then (.json 500 "error" "Internal Server Error", w)
  else
    let result := selectByEmail w.store email
    if result.length = 1 then
      let mailOptions : MailOptions :=
        { sender := "stg.violin@gmail.com", recipient := email,
          subject := "Password Reset OTP",
          text := "Your OTP for password reset is: " ++ otp }
      let w1 : Server :=
        { w with otpStorage := issue w.otpStorage email otp,
                 outbox := w.outbox ++ [mailOptions] }
      if mailFails then (.sendStatus 500, w1)
      else (.redirect ("/verify_otp/" ++ encodeURIComponent email), w1)
    else (.json 404 "error" "Email not found", w)

/-- Handler `app.post('/reset_password/:email')` (lines 223-240);
`paramsEmail` is `req.params.email`.  Line 224 decodes it once more, outside
the `try`: a `URIError` there leaves the request unanswered.  `queryFails`
says whether the `UPDATE` rejects. -/
def post_reset_password (w : Server) (paramsEmail : String) (newPassword : String)
    (queryFails : Bool) : Response × Server :=
  match decodeURIComponent paramsEmail with
  | none => (.unhandled, w)
  | some email =>
    if queryFails then (.sendStatus 500, w)
    else (.redirect "/login",
          { w with store := updatePassword w.store newPassword email,
                   otpStorage := consume w.otpStorage email })

/-- A request to one of the four handlers, with what the environment decides
while it is served. -/
inductive Request where
  | signup (body : SignupBody) (selectFails insertFails : Bool)
  | verifyOtp (email : String) (otp : JsValue)
  | forgotPassword (email : String) (queryFails : Bool) (otp : String) (mailFails : Bool)
  | resetPassword (paramsEmail : String) (newPassword : String) (queryFails : Bool)
  deriving DecidableEq, Repr

/-- Serve one request. -/
def handle (w : Server) : Request → Response × Server
  | .signup body sf insf => post_signup w body sf insf
  | .verifyOtp email otp => post_verify_otp w email otp
  | .forgotPassword email qf otp mf => post_forgot_password w email qf otp mf
  | .resetPassword p pw qf => post_reset_password w p pw qf

/-- Serve a finite sequence of requests, one after the other. -/
def run (w : Server) : List Request → Server
  | [] => w
  | r :: rs => run (handle w r).2 rs

/-- Whether a request is a reset request for `id` (the only place where a
code is issued for `id`) or a password reset whose decoded route parameter
is `id` (the only place where the entry of `id` is deleted). -/
def issuesOrConsumes (id : String) : Request → Bool
  | .forgotPassword email _ _ _ => decide (email = id)
  | .resetPassword p _ _ => decide (decodeURIComponent p = some id)
  | _ => false

/-- Email uniqueness: no two rows of the table carry the same `Email`. -/
def uniqueEmails (s : Store) : Prop :=
  (s.rows.map Account.Email).Nodup

/-- A row with the given id, email and password, the other columns fixed. -/
def mkAccount (id : Nat) (email password : String) : Account :=
  { ID := id, Name := "Student", Age := "20", Email := email, Phone := "",
    RegistrationNumber := "", CollegeBatch := "", Password := password }

/-- A server whose table holds one account, nothing issued, nothing sent. -/
def serverWith (email : String) : Server :=
  { store := { rows := [mkAccount 1 email "old"], autoIncrement := 2 },
    otpStorage := [], outbox := [] }

/-- A server with the accounts `a%40x.com` and `a@x.com`, nothing issued,
nothing sent. -/
def twoAccounts : Server :=
  { store := { rows := [mkAccount 1 "a%40x.com" "old1", mkAccount 2 "a@x.com" "old2"],
               autoIncrement := 3 },
    otpStorage := [], outbox := [] }

/-- The signup body with the given email and password, the other fields
fixed. -/
def mkSignup (email password : String) : SignupBody :=
  { name := "Student", email := email, phone := "", registrationNumber := "",
    collegeBatch := "", age := "20", password := password }

/-! ## Properties of the object operations -/

theorem getOwn_replaceOwn_same (o : OtpStorage) (k v : String) :
    getOwn (replaceOwn o k v) k = (getOwn o k).map (fun _ => v) := by
  induction o with
  | nil => rfl
  | cons p rest ih =>
    obtain ⟨k', v'⟩ := p
    by_cases h : k' = k
    · simp [replaceOwn, getOwn, h]
    · simp [replaceOwn, getOwn, h, ih]

theorem getOwn_replaceOwn_other (o : OtpStorage) (k v k2 : String) (hne : k2 ≠ k) :
    getOwn (replaceOwn o k v) k2 = getOwn o k2 := by
  induction o with
  | nil => rfl
  | cons p rest ih =>
    obtain ⟨k', v'⟩ := p
    by_cases h : k' = k
    · subst h
      have h2 : ¬ k' = k2 := fun e => hne e.symm
      simp [replaceOwn, getOwn, h2, ih]
    · by_cases h3 : k' = k2
      · subst h3
        simp [replaceOwn, getOwn, h]
      · simp [replaceOwn, getOwn, h, h3, ih]

theorem getOwn_append (o : OtpStorage) (k v k2 : String) :
    getOwn (o ++ [(k, v)]) k2 =
      match getOwn o k2 with
      | some x => some x
      | none => if k = k2 then some v else none := by
  induction o with
  | nil => simp [getOwn]
  | cons p rest ih =>
    obtain ⟨k', v'⟩ := p
    by_cases h : k' = k2
    · simp [getOwn, h]
    · simp [getOwn, h, ih]

/-- After the write `o[k] = v` the own property `k` is `v`, unless `k` is
`__proto__` and the object had no such own property. -/
theorem getOwn_setProp_same (o : OtpStorage) (k v : String) (hk : k ≠ "__proto__") :
    getOwn (setProp o k v) k = some v := by
  unfold setProp
  cases h : getOwn o k with
  | some x => simp [getOwn_replaceOwn_same, h]
  | none => simp [hk, getOwn_append, h]

/-- The write `o[k] = v` leaves every other own property as it was. -/
theorem getOwn_setProp_other (o : OtpStorage) (k v k2 : String) (hne : k2 ≠ k) :
    getOwn (setProp o k v) k2 = getOwn o k2 := by
  unfold setProp
  cases h : getOwn o k with
  | some x => simp [getOwn_replaceOwn_other _ _ _ _ hne]
  | none =>
    by_cases hp : k = "__proto__"
    · simp [hp]
    · have : ¬ k = k2 := fun e => hne e.symm
      simp [hp, getOwn_append, this]
      cases getOwn o k2 <;> rfl

theorem getOwn_deleteProp_same (o : OtpStorage) (k : String) :
    getOwn (deleteProp o k) k = none := by
  induction o with
  | nil => rfl
  | cons p rest ih =>
    obtain ⟨k', v'⟩ := p
    by_cases h : k' = k
    · simpa [deleteProp, List.filter, h] using ih
    · simpa [deleteProp, List.filter, h, getOwn] using ih

theorem getOwn_deleteProp_other (o : OtpStorage) (k k2 : String) (hne : k2 ≠ k) :
    getOwn (deleteProp o k) k2 = getOwn o k2 := by
  induction o with
  | nil => rfl
  | cons p rest ih =>
    obtain ⟨k', v'⟩ := p
    by_cases h : k' = k
    · subst h
      have h3 : ¬ k' = k2 := fun e => hne e.symm
      simpa [deleteProp, List.filter, getOwn, h3] using ih
    · by_cases h3 : k' = k2
      · subst h3
        simp [deleteProp, List.filter, h, getOwn]
      · simpa [deleteProp, List.filter, h, getOwn, h3] using ih

theorem deleteProp_absent (o : OtpStorage) (k : String) (h : getOwn o k = none) :
    deleteProp o k = o := by
  induction o with
  | nil => rfl
  | cons p rest ih =>
    obtain ⟨k', v'⟩ := p
    by_cases hk : k' = k
    · simp [getOwn, hk] at h
    · simp [getOwn, hk] at h
      have := ih h
      simp only [deleteProp] at this ⊢
      simp [List.filter, hk, this]

theorem deleteProp_idem (o : OtpStorage) (k : String) :
    deleteProp (deleteProp o k) k = deleteProp o k :=
  deleteProp_absent _ _ (getOwn_deleteProp_same o k)

/-- With a string candidate, `otpStorage[id] === candidate` holds exactly
when `id` has an own property whose value is the candidate. -/
theorem validate_str_iff (o : OtpStorage) (id c : String) :
    validate o id (.str c) = true ↔ getOwn o id = some c := by
  unfold validate getProp
  cases h : getOwn o id with
  | some v => simp [strictEq]
  | none =>
    by_cases hb : id ∈ objectPrototypeKeys
    · simp [hb, strictEq]
    · simp [hb, strictEq]

/-- With a missing candidate, `otpStorage[id] === undefined` holds exactly
when `id` has no own property and is not inherited from `Object.prototype`. -/
theorem validate_undefined_iff (o : OtpStorage) (id : String) :
    validate o id .undefined = true ↔ getOwn o id = none ∧ id ∉ objectPrototypeKeys := by
  unfold validate getProp
  cases h : getOwn o id with
  | some v => simp [strictEq]
  | none =>
    by_cases hb : id ∈ objectPrototypeKeys
    · simp [hb, strictEq]
    · simp [hb, strictEq]

/-! ## What the handlers do to `otpStorage` -/

/-- A reset request for a registered email, with a working store, performs
the write `otpStorage[email] = otp`, whatever the notifier answers. -/
theorem post_forgot_password_issues (w : Server) (email otp : String) (mailFails : Bool)
    (hreg : (selectByEmail w.store email).length = 1) :
    (post_forgot_password w email false otp mailFails).2.otpStorage
      = issue w.otpStorage email otp := by
  unfold post_forgot_password
  cases mailFails <;> simp [hreg]

/-- A password reset whose `UPDATE` succeeds deletes the entry of the decoded
route parameter. -/
theorem post_reset_password_consumes (w : Server) (p email pw : String)
    (hdec : decodeURIComponent p = some email) :
    (post_reset_password w p pw false).2.otpStorage = consume w.otpStorage email := by
  simp [post_reset_password, hdec]

/-- A request that neither issues a code for `id` nor deletes the entry of
`id` leaves the own property `id` of `otpStorage` as it was. -/
theorem handle_keeps_entry (w : Server) (id : String) (r : Request)
    (hr : issuesOrConsumes id r = false) :
    getOwn (handle w r).2.otpStorage id = getOwn w.otpStorage id := by
  cases r with
  | signup body sf insf =>
    simp only [handle, post_signup]
    split
    · rfl
    · split
      · split <;> rfl
      · rfl
  | verifyOtp email otp =>
    simp only [handle, post_verify_otp]
    split <;> rfl
  | forgotPassword email qf otp mf =>
    have hne : id ≠ email := by
      intro e
      simp [issuesOrConsumes, e] at hr
    simp only [handle, post_forgot_password]
    split
    · rfl
    · split
      · split <;> exact getOwn_setProp_other _ _ _ _ hne
      · rfl
  | resetPassword p pw qf =>
    simp only [handle, post_reset_password]
    cases hdec : decodeURIComponent p with
    | none => rfl
    | some email =>
      have hne : id ≠ email := by
        intro e
        simp [issuesOrConsumes, hdec, e] at hr
      simp only []
      split
      · rfl
      · exact getOwn_deleteProp_other _ _ _ hne

/-- The own property `id` survives every finite sequence of requests none of
which issues a code for `id` or deletes the entry of `id`. -/
theorem run_keeps_entry (id : String) (reqs : List Request) :
    ∀ w : Server, (∀ r ∈ reqs, issuesOrConsumes id r = false) →
      getOwn (run w reqs).otpStorage id = getOwn w.otpStorage id := by
  induction reqs with
  | nil => intro w _; rfl
  | cons r rs ih =>
    intro w h
    have h1 := handle_keeps_entry w id r (h r (List.mem_cons_self r rs))
    have h2 := ih (handle w r).2 (fun q hq => h q (List.mem_cons_of_mem r hq))
    simpa [run, h1] using h2

/-- Apart from the identifier `__proto__`: the code issued by a reset request
for a registered identifier validates, and still validates after any finite
sequence of requests that contains neither a reset request for that
identifier nor a password reset for it. -/
theorem issued_code_stays_valid (w : Server) (id c : String) (mailFails : Bool)
    (reqs : List Request) (hid : id ≠ "__proto__")
    (hreg : (selectByEmail w.store id).length = 1)
    (hreqs : ∀ r ∈ reqs, issuesOrConsumes id r = false) :
    validate (run (post_forgot_password w id false c mailFails).2 reqs).otpStorage id (.str c)
      = true := by
  rw [validate_str_iff, run_keeps_entry id reqs _ hreqs, post_forgot_password_issues w id c _ hreg]
  exact getOwn_setProp_same _ _ _ hid

/-! ## C1: validation against the registry -/

/-- With a string candidate the handler redirects exactly when an entry exists
for the identifier and its stored code is the candidate; this covers the
names inherited from `Object.prototype`. -/
theorem verify_string_candidate (w : Server) (id c : String) :
    ((post_verify_otp w id (.str c)).1 = .redirect ("/reset_password/" ++ encodeURIComponent id)
        ↔ getOwn w.otpStorage id = some c) ∧
    ((post_verify_otp w id (.str c)).1 = .json 401 "error" "Invalid OTP"
        ↔ getOwn w.otpStorage id ≠ some c) := by
  have h := validate_str_iff w.otpStorage id c
  unfold post_verify_otp
  by_cases hv : validate w.otpStorage id (.str c) = true
  · simp [hv, h.mp hv]
  · have hn : getOwn w.otpStorage id ≠ some c := fun e => hv (h.mpr e)
    simp [hv, hn]

/-- C1, at the input where the code departs from it: `otpStorage` is empty, so
no entry exists for `alice@x.com`, and the request body has no `otp` field;
`otpStorage[email] === otp` compares `undefined` with `undefined`, and the
handler redirects to the reset-password page instead of answering 401. -/
theorem C1_missing_otp_accepted_without_entry :
    getOwn ([] : OtpStorage) "alice@x.com" = none ∧
    post_verify_otp ⟨⟨[], 1⟩, [], []⟩ "alice@x.com" .undefined
      = (.redirect "/reset_password/alice%40x.com", ⟨⟨[], 1⟩, [], []⟩) := by
  decide

/-! ## C2: an issued code stays valid -/

/-- C2, at the input where the code departs from it: the account with email
`__proto__` is registered and a reset request issues the code `123456` for
it; the write `otpStorage[email] = otp` is ignored for this key, `otpStorage`
stays empty, and verifying that very code is answered 401. -/
theorem C2_code_for_proto_key_not_valid :
    (selectByEmail (serverWith "__proto__").store "__proto__").length = 1 ∧
    (post_forgot_password (serverWith "__proto__") "__proto__" false "123456" false).1
      = .redirect "/verify_otp/__proto__" ∧
    (post_forgot_password (serverWith "__proto__") "__proto__" false "123456" false).2.otpStorage
      = [] ∧
    (post_verify_otp (post_forgot_password (serverWith "__proto__") "__proto__" false
        "123456" false).2 "__proto__" (.str "123456")).1
      = .json 401 "error" "Invalid OTP" := by
  decide

/-! ## C3: only the latest issued code is valid -/

/-- C3 fails as stated: when both calls of `issue` for `a@x.com` return the
same code `123456`, the first returned code still validates afterwards. -/
theorem C3_counterexample :
    ¬ (validate (issue (issue [] "a@x.com" "123456") "a@x.com" "123456") "a@x.com"
          (.str "123456") = false ∧
       validate (issue (issue [] "a@x.com" "123456") "a@x.com" "123456") "a@x.com"
          (.str "123456") = true) := by
  decide

/-- C3 as amended: for every registry state and every identifier other than
`__proto__`, after `issue` is called twice for it, returning `c1` and then
`c2`, the second code validates, and the first code validates exactly when it
is the same string as the second, so it is invalid whenever the two codes
differ.  Two reset requests for a registered identifier are two such calls
of `issue`. -/
theorem C3_latest_code_only (o : OtpStorage) (id c1 c2 : String) (hid : id ≠ "__proto__") :
    validate (issue (issue o id c1) id c2) id (.str c2) = true ∧
    (validate (issue (issue o id c1) id c2) id (.str c1) = true ↔ c1 = c2) ∧
    (c1 ≠ c2 → validate (issue (issue o id c1) id c2) id (.str c1) = false) ∧
    (∀ (store : Store) (out : List MailOptions) (m1 m2 : Bool),
      (selectByEmail store id).length = 1 →
      (post_forgot_password (post_forgot_password ⟨store, o, out⟩ id false c1 m1).2
          id false c2 m2).2.otpStorage = issue (issue o id c1) id c2) := by
  have hget : getOwn (issue (issue o id c1) id c2) id = some c2 :=
    getOwn_setProp_same _ _ _ hid
  have hiff : validate (issue (issue o id c1) id c2) id (.str c1) = true ↔ c1 = c2 := by
    rw [validate_str_iff, hget]
    constructor
    · intro h; exact (Option.some.inj h).symm
    · intro h; rw [h]
  refine ⟨(validate_str_iff _ _ _).mpr hget, hiff, ?_, ?_⟩
  · intro hne
    cases hv : validate (issue (issue o id c1) id c2) id (.str c1) with
    | false => rfl
    | true => exact absurd (hiff.mp hv) hne
  · intro store out m1 m2 hreg
    have hstore : (post_forgot_password ⟨store, o, out⟩ id false c1 m1).2.store = store := by
      cases m1 <;> simp [post_forgot_password, hreg]
    rw [post_forgot_password_issues _ id c2 m2 (by rw [hstore]; exact hreg),
      post_forgot_password_issues _ id c1 m1 hreg]

/-- C3 as amended, at a concrete input: the codes `111111` and then `222222`
issued for `a@x.com` on the empty registry. -/
theorem C3_latest_code_only_witness :
    "a@x.com" ≠ "__proto__" ∧
    validate (issue (issue [] "a@x.com" "111111") "a@x.com" "222222") "a@x.com"
      (.str "222222") = true ∧
    validate (issue (issue [] "a@x.com" "111111") "a@x.com" "222222") "a@x.com"
      (.str "111111") = false ∧
    (selectByEmail (serverWith "a@x.com").store "a@x.com").length = 1 ∧
    (post_forgot_password (post_forgot_password ⟨(serverWith "a@x.com").store, [], []⟩
        "a@x.com" false "111111" false).2 "a@x.com" false "222222" false).2.otpStorage
      = issue (issue [] "a@x.com" "111111") "a@x.com" "222222" :=
  ⟨by decide,
   (C3_latest_code_only [] "a@x.com" "111111" "222222" (by decide)).1,
   (C3_latest_code_only [] "a@x.com" "111111" "222222" (by decide)).2.2.1 (by decide),
   by decide,
   (C3_latest_code_only [] "a@x.com" "111111" "222222" (by decide)).2.2.2
     (serverWith "a@x.com").store [] false false (by decide)⟩

/-! ## C4: consuming an entry -/

/-- C4: for every registry state, identifier `id` and code `c`, after
`consume(id)` the code `c` does not validate for `id`; `consume` on an
identifier without an entry returns the registry unchanged (it is a total
function: the `delete` statement does not throw); and `consume(id)` twice
leaves the same registry as `consume(id)` once.  The deletion is the one a
successful password reset performs: after such a reset for `id`, verifying
`c` for `id` is answered 401. -/
theorem C4_consume (o : OtpStorage) (id c : String) :
    validate (consume o id) id (.str c) = false ∧
    (getOwn o id = none → consume o id = o) ∧
    consume (consume o id) id = consume o id ∧
    (∀ (store : Store) (out : List MailOptions) (p pw : String),
      decodeURIComponent p = some id →
      (post_verify_otp (post_reset_password ⟨store, o, out⟩ p pw false).2 id (.str c)).1
        = .json 401 "error" "Invalid OTP") := by
  have hnone : ∀ o2 : OtpStorage, getOwn (consume o2 id) id ≠ some c := by
    intro o2 h1
    have h2 : getOwn (consume o2 id) id = none := getOwn_deleteProp_same o2 id
    rw [h2] at h1
    exact absurd h1 (by simp)
  refine ⟨?_, deleteProp_absent o id, deleteProp_idem o id, ?_⟩
  · cases hv : validate (consume o id) id (.str c) with
    | false => rfl
    | true => exact absurd ((validate_str_iff _ _ _).mp hv) (hnone o)
  · intro store out p pw hdec
    refine (verify_string_candidate _ id c).2.mpr ?_
    rw [post_reset_password_consumes _ p id pw hdec]
    exact hnone o

/-- C4 at a concrete input: the registry holds entries for `a@x.com` and
`b@x.com`; consuming `a@x.com` invalidates its code, and consuming the absent
`c@x.com` changes nothing. -/
theorem C4_consume_witness :
    validate (consume [("a@x.com", "123456"), ("b@x.com", "654321")] "a@x.com") "a@x.com"
      (.str "123456") = false ∧
    getOwn [("a@x.com", "123456"), ("b@x.com", "654321")] "c@x.com" = none ∧
    consume [("a@x.com", "123456"), ("b@x.com", "654321")] "c@x.com"
      = [("a@x.com", "123456"), ("b@x.com", "654321")] ∧
    decodeURIComponent "a@x.com" = some "a@x.com" ∧
    (post_verify_otp (post_reset_password
        ⟨(serverWith "a@x.com").store, [("a@x.com", "123456"), ("b@x.com", "654321")], []⟩
        "a@x.com" "newpw" false).2 "a@x.com" (.str "123456")).1
      = .json 401 "error" "Invalid OTP" :=
  ⟨(C4_consume [("a@x.com", "123456"), ("b@x.com", "654321")] "a@x.com" "123456").1,
   by decide,
   (C4_consume [("a@x.com", "123456"), ("b@x.com", "654321")] "c@x.com" "123456").2.1
     (by decide),
   by decide,
   (C4_consume [("a@x.com", "123456"), ("b@x.com", "654321")] "a@x.com" "123456").2.2.2
     (serverWith "a@x.com").store [] "a@x.com" "newpw" (by decide)⟩

/-! ## C5: a reset request for an unknown account -/

/-- C5: for every server state and email for which the `SELECT` returns no
row, a reset request is answered 404 `Email not found` and the state is the
one before the request: `otpStorage` has no new entry and nothing is handed
to `sendMail`. -/
theorem C5_unknown_account (w : Server) (email otp : String) (mailFails : Bool)
    (habsent : selectByEmail w.store email = []) :
    post_forgot_password w email false otp mailFails
      = (.json 404 "error" "Email not found", w) := by
  simp [post_forgot_password, habsent]

/-- C5 at a concrete input: the table holds `a@x.com` only and the request
names `missing@x.com`. -/
theorem C5_unknown_account_witness :
    selectByEmail (serverWith "a@x.com").store "missing@x.com" = [] ∧
    post_forgot_password (serverWith "a@x.com") "missing@x.com" false "123456" false
      = (.json 404 "error" "Email not found", serverWith "a@x.com") :=
  ⟨by decide, C5_unknown_account (serverWith "a@x.com") "missing@x.com" "123456" false (by decide)⟩

/-! ## C6: a failed delivery does not roll the code back -/

/-- Apart from the identifier `__proto__`: when the notifier fails, a reset
request for a registered email is answered 500, and the code issued in that
request is the entry of the email and validates. -/
theorem delivery_failure_keeps_code (w : Server) (email otp : String)
    (hid : email ≠ "__proto__") (hreg : (selectByEmail w.store email).length = 1) :
    (post_forgot_password w email false otp true).1 = .sendStatus 500 ∧
    getOwn (post_forgot_password w email false otp true).2.otpStorage email = some otp ∧
    validate (post_forgot_password w email false otp true).2.otpStorage email (.str otp)
      = true := by
  have hget : getOwn (post_forgot_password w email false otp true).2.otpStorage email
      = some otp := by
    rw [post_forgot_password_issues w email otp true hreg]
    exact getOwn_setProp_same _ _ _ hid
  refine ⟨?_, hget, (validate_str_iff _ _ _).mpr hget⟩
  simp [post_forgot_password, hreg]

/-- C6, at the input where the code departs from it: the account with email
`__proto__` is registered and the notifier fails; the request is answered
500, but the code `123456` issued in it is not an entry of `otpStorage` and
does not validate afterwards.  The cause is the one of C2. -/
theorem C6_code_for_proto_key_lost :
    (selectByEmail (serverWith "__proto__").store "__proto__").length = 1 ∧
    (post_forgot_password (serverWith "__proto__") "__proto__" false "123456" true).1
      = .sendStatus 500 ∧
    getOwn (post_forgot_password (serverWith "__proto__") "__proto__" false "123456"
      true).2.otpStorage "__proto__" = none ∧
    validate (post_forgot_password (serverWith "__proto__") "__proto__" false "123456"
      true).2.otpStorage "__proto__" (.str "123456") = false := by
  decide

/-! ## C7: the full reset flow -/

theorem percentTokens_of_no_percent (l : List Char) (h : '%' ∉ l) :
    percentTokens l = some (l.map UriToken.lit) := by
  induction l with
  | nil => rfl
  | cons c rest ih =>
    have hc : c ≠ '%' := fun e => h (e ▸ List.mem_cons_self c rest)
    have hrest : '%' ∉ rest := fun m => h (List.mem_cons_of_mem c m)
    unfold percentTokens
    simp only [if_neg hc, ih hrest, List.map_cons]

theorem assembleTokens_lit (l : List Char) :
    assembleTokens (l.map UriToken.lit) = some l := by
  induction l with
  | nil => rfl
  | cons c rest ih =>
    unfold assembleTokens at ih ⊢
    rw [List.map_cons, assembleFrom, ih]
    rfl

/-- A string without `%` is its own decoding. -/
theorem decodeURIComponent_of_no_percent (s : String) (h : '%' ∉ s.toList) :
    decodeURIComponent s = some s := by
  unfold decodeURIComponent
  rw [percentTokens_of_no_percent _ h]
  simp [assembleTokens_lit]

/-! ### Decoding undoes encoding -/

theorem hexVal_hexDigit : ∀ n, n < 16 → hexVal (hexDigit n) = some n := by
  decide

theorem char_toNat_valid (c : Char) :
    c.toNat < 0xD800 ∨ (0xDFFF < c.toNat ∧ c.toNat < 0x110000) := c.valid

theorem percentTokens_escape (h1 h2 : Char) (rest : List Char) :
    percentTokens ('%' :: h1 :: h2 :: rest)
      = match hexVal h1, hexVal h2, percentTokens rest with
        | some a, some b, some ts => some (.octet (16 * a + b) :: ts)
        | _, _, _ => none := by
  conv_lhs => unfold percentTokens
  rw [if_pos rfl]

theorem percentTokens_literal (c : Char) (hc : c ≠ '%') (rest : List Char) :
    percentTokens (c :: rest) = (percentTokens rest).map (fun ts => UriToken.lit c :: ts) := by
  conv_lhs => unfold percentTokens
  rw [if_neg hc]
  cases percentTokens rest <;> rfl

theorem percentTokens_percentOctet (b : Nat) (hb : b < 256) (rest : List Char) :
    percentTokens (percentOctet b ++ rest)
      = (percentTokens rest).map (fun ts => UriToken.octet b :: ts) := by
  have h1 : hexVal (hexDigit (b / 16)) = some (b / 16) := hexVal_hexDigit _ (by omega)
  have h2 : hexVal (hexDigit (b % 16)) = some (b % 16) := hexVal_hexDigit _ (by omega)
  have h3 : 16 * (b / 16) + b % 16 = b := by omega
  simp only [percentOctet, List.cons_append, List.nil_append]
  rw [percentTokens_escape, h1, h2]
  cases percentTokens rest with
  | none => rfl
  | some ts => simp [h3]

theorem percentTokens_octets (bs : List Nat) (hbs : ∀ b ∈ bs, b < 256) (rest : List Char) :
    percentTokens ((bs.map percentOctet).flatten ++ rest)
      = (percentTokens rest).map (fun ts => bs.map UriToken.octet ++ ts) := by
  induction bs with
  | nil =>
    simp only [List.map_nil, List.flatten_nil, List.nil_append]
    cases percentTokens rest <;> rfl
  | cons b bs ih =>
    have hb : b < 256 := hbs b (List.mem_cons_self b bs)
    have hrest : ∀ x ∈ bs, x < 256 := fun x hx => hbs x (List.mem_cons_of_mem b hx)
    rw [List.map_cons, List.flatten_cons, List.append_assoc, percentTokens_percentOctet b hb,
      ih hrest]
    cases percentTokens rest <;> rfl

theorem utf8Octets_lt (c : Char) : ∀ b ∈ utf8Octets c, b < 256 := by
  have hv := char_toNat_valid c
  intro b hb
  unfold utf8Octets at hb
  simp only [] at hb
  split at hb
  · simp at hb; omega
  · split at hb
    · simp at hb; omega
    · split at hb
      · simp at hb; omega
      · simp at hb; omega

theorem uriUnreserved_ne_percent (c : Char) (h : uriUnreserved c = true) : c ≠ '%' := by
  intro e
  rw [e] at h
  exact absurd h (by decide)

theorem percentTokens_encodeChar (c : Char) (rest : List Char) :
    percentTokens (encodeChar c ++ rest)
      = (percentTokens rest).map (fun ts => charTokens c ++ ts) := by
  unfold encodeChar charTokens
  by_cases h : uriUnreserved c = true
  · rw [if_pos h, if_pos h]
    exact percentTokens_literal c (uriUnreserved_ne_percent c h) rest
  · rw [if_neg h, if_neg h]
    exact percentTokens_octets _ (utf8Octets_lt c) rest

theorem percentTokens_encode (l : List Char) :
    percentTokens ((l.map encodeChar).flatten) = some ((l.map charTokens).flatten) := by
  induction l with
  | nil => rfl
  | cons c rest ih =>
    rw [List.map_cons, List.flatten_cons, percentTokens_encodeChar, ih]
    rfl
theorem assembleFrom_lit (c : Char) (ts : List UriToken) :
    assembleFrom none (.lit c :: ts) = (assembleFrom none ts).map (fun l => c :: l) := by
  rw [assembleFrom]

theorem assembleFrom_ascii (b : Nat) (hb : b < 0x80) (ts : List UriToken) :
    assembleFrom none (.octet b :: ts)
      = (assembleFrom none ts).map (fun l => Char.ofNat b :: l) := by
  rw [assembleFrom, if_pos hb]

theorem assembleFrom_lead (b : Nat) (st : Nat × Nat × Nat) (hb : ¬ b < 0x80)
    (hl : leadOctet b = some st) (ts : List UriToken) :
    assembleFrom none (.octet b :: ts) = assembleFrom (some st) ts := by
  rw [assembleFrom, if_neg hb, hl]

theorem assembleFrom_last (v least b : Nat) (hc : isContinuation b = true)
    (hv : validScalar (v * 64 + (b - 0x80)) least = true) (ts : List UriToken) :
    assembleFrom (some (1, v, least)) (.octet b :: ts)
      = (assembleFrom none ts).map (fun l => Char.ofNat (v * 64 + (b - 0x80)) :: l) := by
  rw [assembleFrom, if_pos hc, if_pos rfl, if_pos hv]

theorem assembleFrom_more (k v least b : Nat) (hk : k ≠ 1) (hc : isContinuation b = true)
    (ts : List UriToken) :
    assembleFrom (some (k, v, least)) (.octet b :: ts)
      = assembleFrom (some (k - 1, v * 64 + (b - 0x80), least)) ts := by
  rw [assembleFrom, if_pos hc, if_neg hk]

theorem assembleFrom_utf8Octets (c : Char) (ts : List UriToken) :
    assembleFrom none ((utf8Octets c).map UriToken.octet ++ ts)
      = (assembleFrom none ts).map (fun l => c :: l) := by
  have hv := char_toNat_valid c
  have hc : Char.ofNat c.toNat = c := Char.ofNat_toNat c
  generalize hn : c.toNat = n at hv hc
  unfold utf8Octets
  simp only [hn]
  by_cases h1 : n < 0x80
  · rw [if_pos h1]
    simp only [List.map_cons, List.map_nil, List.cons_append, List.nil_append]
    rw [assembleFrom_ascii n h1, hc]
  · rw [if_neg h1]
    by_cases h2 : n < 0x800
    · rw [if_pos h2]
      simp only [List.map_cons, List.map_nil, List.cons_append, List.nil_append]
      have hl : leadOctet (0xC0 + n / 64) = some (1, n / 64, 0x80) := by
        unfold leadOctet
        rw [if_pos (by omega)]
        simp
      rw [assembleFrom_lead _ _ (by omega) hl,
        assembleFrom_last _ _ _ (by simp [isContinuation]; omega)
          (by simp [validScalar]; omega)]
      have hval : n / 64 * 64 + (0x80 + n % 64 - 0x80) = n := by omega
      rw [hval, hc]
    · rw [if_neg h2]
      by_cases h3 : n < 0x10000
      · rw [if_pos h3]
        simp only [List.map_cons, List.map_nil, List.cons_append, List.nil_append]
        have hl : leadOctet (0xE0 + n / 4096) = some (2, n / 4096, 0x800) := by
          unfold leadOctet
          rw [if_neg (by omega), if_pos (by omega)]
          simp
        rw [assembleFrom_lead _ _ (by omega) hl,
          assembleFrom_more _ _ _ _ (by decide) (by simp [isContinuation]; omega),
          assembleFrom_last _ _ _ (by simp [isContinuation]; omega)
            (by simp [validScalar]; omega)]
        have hval : (n / 4096 * 64 + (0x80 + n / 64 % 64 - 0x80)) * 64
            + (0x80 + n % 64 - 0x80) = n := by omega
        rw [hval, hc]
      · rw [if_neg h3]
        simp only [List.map_cons, List.map_nil, List.cons_append, List.nil_append]
        have hl : leadOctet (0xF0 + n / 262144) = some (3, n / 262144, 0x10000) := by
          unfold leadOctet
          rw [if_neg (by omega), if_neg (by omega), if_pos (by omega)]
          simp
        rw [assembleFrom_lead _ _ (by omega) hl,
          assembleFrom_more _ _ _ _ (by decide) (by simp [isContinuation]; omega),
          assembleFrom_more _ _ _ _ (by decide) (by simp [isContinuation]; omega),
          assembleFrom_last _ _ _ (by simp [isContinuation]; omega)
            (by simp [validScalar]; omega)]
        have hval : ((n / 262144 * 64 + (0x80 + n / 4096 % 64 - 0x80)) * 64
            + (0x80 + n / 64 % 64 - 0x80)) * 64 + (0x80 + n % 64 - 0x80) = n := by omega
        rw [hval, hc]

theorem assembleFrom_charTokens (c : Char) (ts : List UriToken) :
    assembleFrom none (charTokens c ++ ts) = (assembleFrom none ts).map (fun l => c :: l) := by
  unfold charTokens
  by_cases h : uriUnreserved c = true
  · rw [if_pos h]
    exact assembleFrom_lit c ts
  · rw [if_neg h]
    exact assembleFrom_utf8Octets c ts

theorem assembleTokens_encode (l : List Char) :
    assembleTokens ((l.map charTokens).flatten) = some l := by
  unfold assembleTokens
  induction l with
  | nil => rfl
  | cons c rest ih =>
    rw [List.map_cons, List.flatten_cons, assembleFrom_charTokens, ih]
    rfl

/-- Decoding undoes encoding: for every string `s`,
`decodeURIComponent(encodeURIComponent(s))` is `s`. -/
theorem decodeURIComponent_encodeURIComponent (s : String) :
    decodeURIComponent (encodeURIComponent s) = some s := by
  unfold decodeURIComponent encodeURIComponent
  simp only [String.toList]
  rw [percentTokens_encode]
  simp only [assembleTokens_encode, Option.map_some']

/-- When the identifier has no `%` and is not `__proto__`: after a reset
request for the registered email `e` issues `c`, verifying `c` redirects to
the reset-password route; the router decodes the segment of that route back
to `e`; and the password reset that receives `e` as route parameter is
answered with the redirect to `/login`, runs the `UPDATE` for `e` and removes
the entry stored under `e`. -/
theorem reset_flow_plain_email (w : Server) (e c pw : String) (mailFails : Bool)
    (hpct : '%' ∉ e.toList) (hid : e ≠ "__proto__")
    (hreg : (selectByEmail w.store e).length = 1) :
    (post_verify_otp (post_forgot_password w e false c mailFails).2 e (.str c)).1
      = .redirect ("/reset_password/" ++ encodeURIComponent e) ∧
    routeParam (encodeURIComponent e) = some e ∧
    (post_reset_password (post_forgot_password w e false c mailFails).2 e pw false).1
      = .redirect "/login" ∧
    (post_reset_password (post_forgot_password w e false c mailFails).2 e pw false).2.store
      = updatePassword w.store pw e ∧
    getOwn (post_reset_password (post_forgot_password w e false c mailFails).2 e pw
      false).2.otpStorage e = none := by
  have hdec := decodeURIComponent_of_no_percent e hpct
  refine ⟨?_, decodeURIComponent_encodeURIComponent e, ?_, ?_, ?_⟩
  · refine (verify_string_candidate _ e c).1.mpr ?_
    rw [post_forgot_password_issues w e c mailFails hreg]
    exact getOwn_setProp_same _ _ _ hid
  · simp [post_reset_password, hdec]
  · cases mailFails <;> simp [post_reset_password, hdec, post_forgot_password, hreg]
  · rw [post_reset_password_consumes _ e e pw hdec]
    exact getOwn_deleteProp_same _ _

/-- C7, at the input where the code departs from it: the accounts `a%40x.com`
and `a@x.com` are registered.  The reset request for `a%40x.com` issues
`123456` and redirects to `/verify_otp/a%2540x.com`; the router decodes that
segment to `a%40x.com`; verifying `123456` succeeds and redirects to
`/reset_password/a%2540x.com`, whose route parameter is again `a%40x.com`.
The reset-password handler decodes it a second time to `a@x.com`: the
password of `a@x.com` becomes `newpw`, the account `a%40x.com` keeps its
password, and the OTP entry stored under `a%40x.com` is still there. -/
theorem C7_second_decoding_hits_other_account :
    post_forgot_password twoAccounts "a%40x.com" false "123456" false
      = (.redirect "/verify_otp/a%2540x.com",
         { store := twoAccounts.store, otpStorage := [("a%40x.com", "123456")],
           outbox := [{ sender := "stg.violin@gmail.com", recipient := "a%40x.com",
                        subject := "Password Reset OTP",
                        text := "Your OTP for password reset is: 123456" }] }) ∧
    routeParam "a%2540x.com" = some "a%40x.com" ∧
    (post_verify_otp (post_forgot_password twoAccounts "a%40x.com" false "123456" false).2
        "a%40x.com" (.str "123456")).1
      = .redirect "/reset_password/a%2540x.com" ∧
    (post_reset_password (post_forgot_password twoAccounts "a%40x.com" false "123456"
        false).2 "a%40x.com" "newpw" false).1
      = .redirect "/login" ∧
    (post_reset_password (post_forgot_password twoAccounts "a%40x.com" false "123456"
        false).2 "a%40x.com" "newpw" false).2.store.rows
      = [mkAccount 1 "a%40x.com" "old1", mkAccount 2 "a@x.com" "newpw"] ∧
    (post_reset_password (post_forgot_password twoAccounts "a%40x.com" false "123456"
        false).2 "a%40x.com" "newpw" false).2.otpStorage
      = [("a%40x.com", "123456")] := by
  decide

/-! ## C8: the password reset does not look at the registry -/

theorem mem_updatePassword (s : Store) (pw email : String) (a : Account)
    (ha : a ∈ (updatePassword s pw email).rows) (he : a.Email = email) : a.Password = pw := by
  simp only [updatePassword, List.mem_map] at ha
  obtain ⟨b, _, hb⟩ := ha
  by_cases h : b.Email = email
  · rw [if_pos h] at hb
    rw [← hb]
  · rw [if_neg h] at hb
    rw [hb] at h
    exact absurd he h

/-- C8: for every table, route parameter, new password and outcome of the
`UPDATE`, and for any two states of `otpStorage`, the password reset gives
the same response and the same table; and when the `UPDATE` succeeds, with
`email` the identifier the handler derives from its route parameter, the
answer is the redirect to `/login`, every account with that email is in the
table with the new password and no account with that email has another
password, whatever `otpStorage` holds (also when it is empty). -/
theorem C8_reset_ignores_registry (store : Store) (o1 o2 : OtpStorage)
    (out : List MailOptions) (p pw : String) (queryFails : Bool) :
    (post_reset_password ⟨store, o1, out⟩ p pw queryFails).1
      = (post_reset_password ⟨store, o2, out⟩ p pw queryFails).1 ∧
    (post_reset_password ⟨store, o1, out⟩ p pw queryFails).2.store
      = (post_reset_password ⟨store, o2, out⟩ p pw queryFails).2.store ∧
    (∀ email, decodeURIComponent p = some email →
      (post_reset_password ⟨store, o1, out⟩ p pw false).1 = .redirect "/login" ∧
      (∀ a ∈ store.rows, a.Email = email →
        { a with Password := pw } ∈ (post_reset_password ⟨store, o1, out⟩ p pw false).2.store.rows) ∧
      (∀ a ∈ store.rows, a.Email ≠ email →
        a ∈ (post_reset_password ⟨store, o1, out⟩ p pw false).2.store.rows) ∧
      (∀ a ∈ (post_reset_password ⟨store, o1, out⟩ p pw false).2.store.rows,
        a.Email = email → a.Password = pw)) := by
  refine ⟨?_, ?_, ?_⟩
  · unfold post_reset_password
    cases decodeURIComponent p <;> cases queryFails <;> rfl
  · unfold post_reset_password
    cases decodeURIComponent p <;> cases queryFails <;> rfl
  · intro email hdec
    have hstore : (post_reset_password ⟨store, o1, out⟩ p pw false).2.store
        = updatePassword store pw email := by
      simp [post_reset_password, hdec]
    refine ⟨by simp [post_reset_password, hdec], ?_, ?_, ?_⟩
    · intro a ha he
      rw [hstore]
      simp only [updatePassword, List.mem_map]
      exact ⟨a, ha, by rw [if_pos he]⟩
    · intro a ha he
      rw [hstore]
      simp only [updatePassword, List.mem_map]
      exact ⟨a, ha, by rw [if_neg he]⟩
    · intro a ha he
      rw [hstore] at ha
      exact mem_updatePassword store pw email a ha he

/-- C8 at a concrete input: no code was ever issued (`otpStorage` is empty),
and the password of `a@x.com` is set to `newpw`. -/
theorem C8_reset_ignores_registry_witness :
    decodeURIComponent "a@x.com" = some "a@x.com" ∧
    (post_reset_password ⟨(serverWith "a@x.com").store, [], []⟩ "a@x.com" "newpw" false).1
      = .redirect "/login" ∧
    mkAccount 1 "a@x.com" "newpw"
      ∈ (post_reset_password ⟨(serverWith "a@x.com").store, [], []⟩ "a@x.com" "newpw"
          false).2.store.rows :=
  ⟨by decide,
   ((C8_reset_ignores_registry (serverWith "a@x.com").store [] [("a@x.com", "123456")] []
      "a@x.com" "newpw" false).2.2 "a@x.com" (by decide)).1,
   ((C8_reset_ignores_registry (serverWith "a@x.com").store [] [("a@x.com", "123456")] []
      "a@x.com" "newpw" false).2.2 "a@x.com" (by decide)).2.1
      (mkAccount 1 "a@x.com" "old") (by decide) rfl⟩

/-! ## C9: a failing store query -/

/-- C9: when the `SELECT` of a reset request rejects, the request is answered
500 `Internal Server Error` and the state is the one before it (no code is
issued, nothing is handed to `sendMail`); when the `UPDATE` of a password
reset rejects, the state is the one before it (the OTP entry is not deleted,
the table is untouched) and the answer is status 500.  The `UPDATE` is sent
only once the route parameter has been decoded. -/
theorem C9_storage_failure_changes_nothing (w : Server) (email otp : String)
    (mailFails : Bool) (p pw : String) :
    post_forgot_password w email true otp mailFails
      = (.json 500 "error" "Internal Server Error", w) ∧
    (post_reset_password w p pw true).2 = w ∧
    (∀ e, decodeURIComponent p = some e →
      post_reset_password w p pw true = (.sendStatus 500, w)) := by
  refine ⟨by simp [post_forgot_password], ?_, ?_⟩
  · unfold post_reset_password
    cases decodeURIComponent p <;> rfl
  · intro e he
    simp [post_reset_password, he]

/-- C9 at a concrete input: a code is outstanding for `a@x.com` and the
`UPDATE` of its password reset rejects. -/
theorem C9_storage_failure_changes_nothing_witness :
    decodeURIComponent "a@x.com" = some "a@x.com" ∧
    post_reset_password ⟨(serverWith "a@x.com").store, [("a@x.com", "123456")], []⟩
        "a@x.com" "newpw" true
      = (.sendStatus 500, ⟨(serverWith "a@x.com").store, [("a@x.com", "123456")], []⟩) :=
  ⟨by decide,
   (C9_storage_failure_changes_nothing
      ⟨(serverWith "a@x.com").store, [("a@x.com", "123456")], []⟩ "a@x.com" "123456" false
      "a@x.com" "newpw").2.2 "a@x.com" (by decide)⟩

/-! ## C10: signup and the uniqueness of emails -/

theorem selectByEmail_eq_nil_iff (s : Store) (email : String) :
    selectByEmail s email = [] ↔ email ∉ s.rows.map Account.Email := by
  simp only [selectByEmail, List.filter_eq_nil_iff, List.mem_map, decide_eq_true_eq]
  constructor
  · rintro h ⟨a, ha, he⟩
    exact h a ha he
  · intro h a ha he
    exact h ⟨a, ha, he⟩

/-- One signup keeps the emails of the table pairwise different, whatever
the outcome of its queries. -/
theorem post_signup_unique (w : Server) (body : SignupBody) (sf insf : Bool)
    (hu : uniqueEmails w.store) : uniqueEmails (post_signup w body sf insf).2.store := by
  have key : (post_signup w body sf insf).2.store = w.store ∨
      (selectByEmail w.store body.email = [] ∧
        (post_signup w body sf insf).2.store = insertUser w.store body) := by
    by_cases hlen : (selectByEmail w.store body.email).length = 0
    · cases sf <;> cases insf <;> simp [post_signup, hlen, List.length_eq_zero.mp hlen]
    · cases sf <;> cases insf <;> simp [post_signup, hlen]
  rcases key with h | ⟨hnil, h⟩
  · rw [h]; exact hu
  · rw [h]
    have hnot := (selectByEmail_eq_nil_iff _ _).mp hnil
    unfold uniqueEmails at hu ⊢
    simp only [insertUser, List.map_append, List.map_cons, List.map_nil]
    rw [List.nodup_append]
    refine ⟨hu, List.nodup_singleton _, ?_⟩
    intro x hx hx2
    rw [List.mem_singleton] at hx2
    exact hnot (hx2 ▸ hx)

/-- C10: with working queries, a signup whose email already belongs to a
stored account is answered 400 `Email already exists` and the state, hence
every stored row, is the one before it; a signup whose email is not stored
is answered 200 and the table is the old one followed by exactly one new row
carrying the submitted fields; and after every finite sequence of signups,
whatever the outcome of their queries, the emails of the table are still
pairwise different if they were before. -/
theorem C10_signup_keeps_emails_unique (w : Server) (body : SignupBody) :
    (selectByEmail w.store body.email ≠ [] →
      ∀ insertFails, post_signup w body false insertFails
        = (.json 400 "error" "Email already exists", w)) ∧
    (selectByEmail w.store body.email = [] →
      post_signup w body false false
        = (.json 200 "message" "User successfully registered",
           { store :=
               { rows := w.store.rows ++
                   [{ ID := w.store.autoIncrement, Name := body.name, Age := body.age,
                      Email := body.email, Phone := body.phone,
                      RegistrationNumber := body.registrationNumber,
                      CollegeBatch := body.collegeBatch, Password := body.password }],
                 autoIncrement := w.store.autoIncrement + 1 },
             otpStorage := w.otpStorage, outbox := w.outbox })) ∧
    (∀ reqs : List (SignupBody × Bool × Bool), uniqueEmails w.store →
      uniqueEmails (run w (reqs.map (fun r => Request.signup r.1 r.2.1 r.2.2))).store) := by
  refine ⟨?_, ?_, ?_⟩
  · intro h insf
    have hlen : ¬ (selectByEmail w.store body.email).length = 0 :=
      fun e => h (List.length_eq_zero.mp e)
    simp [post_signup, hlen]
  · intro h
    simp [post_signup, h, insertUser]
  · intro reqs
    induction reqs generalizing w with
    | nil => intro hu; exact hu
    | cons r rs ih =>
      intro hu
      simp only [List.map_cons, run, handle]
      exact ih _ (post_signup_unique w r.1 r.2.1 r.2.2 hu)

/-- C10 at a concrete input: the table holds `a@x.com`; a second signup with
`a@x.com` is answered 400 and changes nothing, a signup with `b@x.com` is
answered 200, and the table stays free of duplicate emails after both. -/
theorem C10_signup_keeps_emails_unique_witness :
    selectByEmail (serverWith "a@x.com").store (mkSignup "a@x.com" "pw2").email ≠ [] ∧
    post_signup (serverWith "a@x.com") (mkSignup "a@x.com" "pw2") false false
      = (.json 400 "error" "Email already exists", serverWith "a@x.com") ∧
    selectByEmail (serverWith "a@x.com").store (mkSignup "b@x.com" "pw3").email = [] ∧
    (post_signup (serverWith "a@x.com") (mkSignup "b@x.com" "pw3") false false).1
      = .json 200 "message" "User successfully registered" ∧
    uniqueEmails (serverWith "a@x.com").store ∧
    uniqueEmails (run (serverWith "a@x.com")
      ([(mkSignup "a@x.com" "pw2", false, false), (mkSignup "b@x.com" "pw3", false, false)].map
        (fun r => Request.signup r.1 r.2.1 r.2.2))).store :=
  ⟨by decide,
   (C10_signup_keeps_emails_unique (serverWith "a@x.com") (mkSignup "a@x.com" "pw2")).1
     (by decide) false,
   by decide,
   congrArg Prod.fst
     ((C10_signup_keeps_emails_unique (serverWith "a@x.com") (mkSignup "b@x.com" "pw3")).2.1
       (by decide)),
   by unfold uniqueEmails; decide,
   (C10_signup_keeps_emails_unique (serverWith "a@x.com") (mkSignup "a@x.com" "pw2")).2.2
     [(mkSignup "a@x.com" "pw2", false, false), (mkSignup "b@x.com" "pw3", false, false)]
     (by unfold uniqueEmails; decide)⟩

end OTPMail
